import Mathlib

/-
Formal model of the `ia_minotaur.py` media browser/downloader.

Python strings are modelled as Lean `String` (lists of characters); Python
`int` as Lean `Int` (arbitrary precision in both); Python truthiness of a
string (`if s:`) as `s ≠ ""`. Regular-expression operations from the source
are embedded as explicit character-list scanners that implement the exact
semantics of the patterns used (leftmost match, greedy quantifiers with
backtracking, alternation in written order, `\b` word boundaries over
`[A-Za-z0-9_]`). External collaborators (the search HTTP call, the `ia`
child process, the on-disk filesystem, the interactive prompts) are passed
in as explicit oracle arguments, since the code only observes their results.
All character handling is ASCII, which covers every literal the source
manipulates.
-/

namespace IaMinotaur

/-- Python `str.strip()` whitespace set (ASCII part): space, tab, newline,
carriage return, vertical tab, form feed. -/
def isPySpace (c : Char) : Bool :=
  c = ' ' || c = '\t' || c = '\n' || c = '\r' || c = '\x0b' || c = '\x0c'

/-- Strip characters satisfying `p` from both ends of a character list. -/
def pyStripSet (p : Char → Bool) (l : List Char) : List Char :=
  ((l.dropWhile p).reverse.dropWhile p).reverse

/-- Python `str.strip()` on a character list. -/
def pyStripL (l : List Char) : List Char := pyStripSet isPySpace l

/-- Python `str.strip()` on a string. -/
def pyStrip (s : String) : String := ⟨pyStripL s.data⟩

/-- Python `str.lower()` (ASCII). -/
def lowerStr (s : String) : String := ⟨s.data.map Char.toLower⟩

/-- Python `str.upper()` (ASCII). -/
def upperStr (s : String) : String := ⟨s.data.map Char.toUpper⟩

/-- Python `a or b` for strings: `a` if non-empty, else `b`. -/
def pyOr (a b : String) : String := if a ≠ "" then a else b

/-- Predicate `leadsWith n l` is true when `n` is an initial segment of `l`. -/
def leadsWith : List Char → List Char → Bool
  | [], _ => true
  | _ :: _, [] => false
  | a :: as, b :: bs => a = b && leadsWith as bs

/-- Predicate `strHasL n l` is true when `n` occurs as a contiguous segment of `l`:
Python's `n in l` on strings. -/
def strHasL (n : List Char) : List Char → Bool
  | [] => n.isEmpty
  | c :: t => leadsWith n (c :: t) || strHasL n t

/-- Python `needle in hay` for strings. -/
def strHas (hay needle : String) : Bool := strHasL needle.data hay.data

theorem leadsWith_strHasL {n l : List Char} (h : leadsWith n l = true) :
    strHasL n l = true := by
  cases l with
  | nil =>
    cases n with
    | nil => rfl
    | cons a as => simp [leadsWith] at h
  | cons c t => simp [strHasL, h]

theorem strHasL_cons {n t : List Char} (c : Char) (h : strHasL n t = true) :
    strHasL n (c :: t) = true := by
  simp [strHasL, h]

theorem leadsWith_append_strHasL :
    ∀ (x y l : List Char), leadsWith (x ++ y) l = true → strHasL y l = true
  | [], y, l, h => leadsWith_strHasL (by simpa using h)
  | a :: as, y, [], h => by simp [leadsWith] at h
  | a :: as, y, b :: bs, h => by
    simp only [List.cons_append, leadsWith, Bool.and_eq_true] at h
    have hrec := leadsWith_append_strHasL as y bs h.2
    cases bs with
    | nil =>
      have : y = [] := by
        cases as with
        | nil =>
          cases y with
          | nil => rfl
          | cons _ _ => simp [leadsWith] at h
        | cons _ _ => simp [leadsWith] at h
      simp [this, strHasL, leadsWith]
    | cons c cs => exact strHasL_cons b hrec

theorem strHasL_append_right {x y : List Char} :
    ∀ l : List Char, strHasL (x ++ y) l = true → strHasL y l = true := by
  intro l
  induction l with
  | nil =>
    intro h
    simp only [strHasL, List.isEmpty_iff, List.append_eq_nil] at h
    simp [strHasL, h.2]
  | cons c t ih =>
    intro h
    simp only [strHasL, Bool.or_eq_true] at h
    rcases h with h | h
    · exact leadsWith_append_strHasL x y (c :: t) h
    · exact strHasL_cons c (ih h)

/-! License gate (`is_openly_licensed`, ia_minotaur.py lines 298-328).
The function reads the `licenseurl` and `rights` fields out of the item's
metadata dict (missing or `None` fields coerce to the empty string); the
model takes those two strings directly. -/

def allow_markers : List String :=
  ["creativecommons.org", "cc-by", "cc0", "public domain", "publicdomain",
   "no known copyright"]

def deny_markers : List String :=
  ["all rights reserved", "copyright", "no redistribution", "permission required"]

/-- Python `" | ".join([p for p in [licenseurl.lower(), rights.lower()] if p])`. -/
def license_joined (licenseurl rights : String) : String :=
  String.intercalate " | " (([lowerStr licenseurl, lowerStr rights]).filter (· ≠ ""))

/-- The license classification: deny markers are scanned first (in list
order, returning the first hit), then allow markers, else a generic
not-allowed verdict. -/
def is_openly_licensed (licenseurl rights : String) : Bool × String :=
  let joined := license_joined licenseurl rights
  match deny_markers.find? (fun d => strHas joined d) with
  | some d => (false, "Blocked by rights metadata: " ++ d)
  | none =>
    if allow_markers.any (fun a => strHas joined a) then
      (true, "Open license detected")
    else
      (false, "No clear open license in metadata (licenseurl/rights).")

/-- C3: the rights text `"no known copyright"` is classified not-allowed,
because the deny marker `"copyright"` is a substring of it and deny markers
are checked first. The third conjunct shows the allow marker
`"no known copyright"` is unreachable in general: any text containing it
also contains the deny marker `"copyright"`. -/
theorem C3_no_known_copyright_blocked :
    is_openly_licensed "" "no known copyright"
      = (false, "Blocked by rights metadata: copyright")
    ∧ "no known copyright" ∈ allow_markers
    ∧ ∀ s : String, strHas s "no known copyright" = true →
        strHas s "copyright" = true := by
  refine ⟨by decide, by decide, ?_⟩
  intro s h
  have hsplit : ("no known copyright".data : List Char)
      = "no known ".data ++ "copyright".data := by decide
  unfold strHas at h ⊢
  rw [hsplit] at h
  exact strHasL_append_right s.data h

/-- C4: whenever the joined licenseurl/rights text contains an allow marker
and also contains a deny marker, the verdict is not-allowed and the reason
names a deny marker that matched (deny precedence). -/
theorem C4_deny_precedence (licenseurl rights : String)
    (_hallow : ∃ a ∈ allow_markers,
      strHas (license_joined licenseurl rights) a = true)
    (hdeny : ∃ d ∈ deny_markers,
      strHas (license_joined licenseurl rights) d = true) :
    (is_openly_licensed licenseurl rights).1 = false
    ∧ ∃ d ∈ deny_markers,
        strHas (license_joined licenseurl rights) d = true
        ∧ (is_openly_licensed licenseurl rights).2
            = "Blocked by rights metadata: " ++ d := by
  obtain ⟨d0, hd0mem, hd0⟩ := hdeny
  cases hfind : deny_markers.find? (fun d => strHas (license_joined licenseurl rights) d) with
  | none =>
    have := List.find?_eq_none.mp hfind d0 hd0mem
    simp [hd0] at this
  | some d =>
    have hmem := List.mem_of_find?_eq_some hfind
    have hp := List.find?_some hfind
    refine ⟨?_, d, hmem, hp, ?_⟩
    · simp [is_openly_licensed, hfind]
    · simp [is_openly_licensed, hfind]

/-- Witness for C4 at a concrete metadata: a Creative Commons license URL
(allow marker) together with an "All Rights Reserved." rights field (deny
marker) yields not-allowed. -/
theorem C4_deny_precedence_witness :
    (is_openly_licensed "https://creativecommons.org/licenses/by/4.0/"
        "All Rights Reserved.").1 = false
    ∧ ∃ d ∈ deny_markers,
        strHas (license_joined "https://creativecommons.org/licenses/by/4.0/"
          "All Rights Reserved.") d = true
        ∧ (is_openly_licensed "https://creativecommons.org/licenses/by/4.0/"
            "All Rights Reserved.").2 = "Blocked by rights metadata: " ++ d :=
  C4_deny_precedence _ _
    ⟨"creativecommons.org", by decide, by decide⟩
    ⟨"all rights reserved", by decide, by decide⟩

/-! Data model: search results and item files (the `SearchResult` and
`IAFile` dataclasses). -/

structure SearchResult where
  identifier : String
  title : String
  year : String
  creator : String
deriving DecidableEq

structure IAFile where
  name : String
  size : Int
  fmt : String
deriving DecidableEq

/-! Favorites store (lines 415-527). The on-disk JSON persistence
(`save_favs`, write-temp-then-rename) is a side effect that does not change
the in-memory contents, so the model tracks the in-memory structure. A
favorited-item entry keeps the fields inserted by `toggle_fav_item`; a
favorited-file entry keeps the fields inserted by `toggle_fav_file`. -/

structure FavItem where
  identifier : String
  title : String
  year : String
  creator : String
deriving DecidableEq

structure FavFile where
  identifier : String
  item_title : String
  year : String
  creator : String
  filename : String
  size : Int
  fmt : String
deriving DecidableEq

structure Favs where
  items : List FavItem
  files : List FavFile
deriving DecidableEq

/-- Predicate `is_fav_item`: membership by whitespace-stripped identifier. -/
def is_fav_item (favs : Favs) (identifier : String) : Bool :=
  favs.items.any (fun it => pyStrip it.identifier = pyStrip identifier)

/-- Action `toggle_fav_item` (lines 453-468): no-op for a blank identifier;
removes every entry with the same stripped identifier when already
favorited; otherwise inserts the raw result fields at the front. -/
def toggle_fav_item (favs : Favs) (r : SearchResult) : Favs :=
  let ident := pyStrip r.identifier
  if ident = "" then favs
  else if is_fav_item favs ident then
    { favs with items := favs.items.filter (fun it => pyStrip it.identifier ≠ ident) }
  else
    { favs with items := ⟨r.identifier, r.title, r.year, r.creator⟩ :: favs.items }

/-- Key builder `file_fav_key`: the identifier+filename composite key. -/
def file_fav_key (identifier filename : String) : String :=
  pyStrip identifier ++ "::" ++ pyStrip filename

/-- Predicate `is_fav_file`: membership by composite key. -/
def is_fav_file (favs : Favs) (identifier filename : String) : Bool :=
  favs.files.any (fun it =>
    file_fav_key it.identifier it.filename = file_fav_key identifier filename)

/-- Action `toggle_fav_file` (lines 481-513): no-op for a blank identifier or
filename; removes every entry with the same composite key when already
favorited; otherwise inserts the raw item/file fields at the front
(`int(f.size or 0)` equals `f.size` for an integer size). -/
def toggle_fav_file (favs : Favs) (item : SearchResult) (f : IAFile) : Favs :=
  let ident := pyStrip item.identifier
  let fname := pyStrip f.name
  if ident = "" ∨ fname = "" then favs
  else if is_fav_file favs ident fname then
    { favs with files := favs.files.filter (fun it =>
        file_fav_key it.identifier it.filename ≠ file_fav_key ident fname) }
  else
    { favs with files :=
        ⟨item.identifier, item.title, item.year, item.creator, f.name, f.size, f.fmt⟩
          :: favs.files }

theorem pyStripSet_eq_rdropWhile (p : Char → Bool) (l : List Char) :
    pyStripSet p l = List.rdropWhile p (l.dropWhile p) := rfl

theorem dropWhile_pyStripSet (p : Char → Bool) (l : List Char) :
    (pyStripSet p l).dropWhile p = pyStripSet p l := by
  rw [pyStripSet_eq_rdropWhile, List.dropWhile_eq_self_iff]
  intro hl
  have hpre := List.rdropWhile_prefix p (l.dropWhile p)
  have hlen : 0 < (l.dropWhile p).length := lt_of_lt_of_le hl hpre.length_le
  have h0 : (List.rdropWhile p (l.dropWhile p)).get ⟨0, hl⟩
      = (l.dropWhile p).get ⟨0, hlen⟩ := by
    simpa using hpre.getElem (n := 0) hl
  rw [h0]
  exact List.dropWhile_get_zero_not p l hlen

theorem pyStripSet_idem (p : Char → Bool) (l : List Char) :
    pyStripSet p (pyStripSet p l) = pyStripSet p l := by
  show List.rdropWhile p ((pyStripSet p l).dropWhile p) = pyStripSet p l
  rw [dropWhile_pyStripSet]
  show List.rdropWhile p (List.rdropWhile p (l.dropWhile p)) = pyStripSet p l
  rw [List.rdropWhile_idempotent]
  rfl

theorem pyStrip_idem (s : String) : pyStrip (pyStrip s) = pyStrip s := by
  unfold pyStrip
  exact congrArg String.mk (pyStripSet_idem isPySpace s.data)

theorem is_fav_item_strip (favs : Favs) (s : String) :
    is_fav_item favs (pyStrip s) = is_fav_item favs s := by
  unfold is_fav_item
  simp [pyStrip_idem]

theorem file_fav_key_strip (i f : String) :
    file_fav_key (pyStrip i) (pyStrip f) = file_fav_key i f := by
  unfold file_fav_key
  rw [pyStrip_idem, pyStrip_idem]

theorem is_fav_file_strip (favs : Favs) (i f : String) :
    is_fav_file favs (pyStrip i) (pyStrip f) = is_fav_file favs i f := by
  unfold is_fav_file
  simp [file_fav_key_strip]

theorem toggle_fav_item_roundtrip (favs : Favs) (r : SearchResult)
    (hid : pyStrip r.identifier ≠ "")
    (hnew : is_fav_item favs r.identifier = false) :
    toggle_fav_item (toggle_fav_item favs r) r = favs := by
  have hnew' : is_fav_item favs (pyStrip r.identifier) = false := by
    rw [is_fav_item_strip]; exact hnew
  have hstep : toggle_fav_item favs r =
      { favs with items := ⟨r.identifier, r.title, r.year, r.creator⟩ :: favs.items } := by
    unfold toggle_fav_item
    simp [hid, hnew']
  rw [hstep]
  unfold toggle_fav_item
  have hfav : is_fav_item
      { favs with items := ⟨r.identifier, r.title, r.year, r.creator⟩ :: favs.items }
        (pyStrip r.identifier) = true := by
    unfold is_fav_item
    simp [pyStrip_idem]
  have hall : ∀ it ∈ favs.items, pyStrip it.identifier ≠ pyStrip r.identifier := by
    intro it hit
    have := List.any_eq_false.mp hnew it hit
    simpa using this
  simp only [hid, if_neg, hfav, if_pos, ite_false, ite_true]
  have hfilter : (({ favs with
      items := ⟨r.identifier, r.title, r.year, r.creator⟩ :: favs.items } : Favs).items.filter
        (fun it => pyStrip it.identifier ≠ pyStrip r.identifier)) = favs.items := by
    simp only [List.filter_cons]
    rw [if_neg (by simp [pyStrip_idem])]
    exact List.filter_eq_self.mpr (fun it hit => by simpa using hall it hit)
  rw [hfilter]

theorem toggle_fav_file_roundtrip (favs : Favs) (item : SearchResult) (f : IAFile)
    (hid : pyStrip item.identifier ≠ "")
    (hfn : pyStrip f.name ≠ "")
    (hnew : is_fav_file favs item.identifier f.name = false) :
    toggle_fav_file (toggle_fav_file favs item f) item f = favs := by
  have hnew' : is_fav_file favs (pyStrip item.identifier) (pyStrip f.name) = false := by
    rw [is_fav_file_strip]; exact hnew
  have hne : ¬ (pyStrip item.identifier = "" ∨ pyStrip f.name = "") := by
    rintro (h | h)
    · exact hid h
    · exact hfn h
  have hstep : toggle_fav_file favs item f =
      { favs with files :=
          ⟨item.identifier, item.title, item.year, item.creator, f.name, f.size, f.fmt⟩
            :: favs.files } := by
    unfold toggle_fav_file
    simp only [if_neg hne, hnew', Bool.false_eq_true, if_neg, ite_false]
  rw [hstep]
  unfold toggle_fav_file
  have hfav : is_fav_file
      { favs with files :=
          ⟨item.identifier, item.title, item.year, item.creator, f.name, f.size, f.fmt⟩
            :: favs.files }
        (pyStrip item.identifier) (pyStrip f.name) = true := by
    unfold is_fav_file
    simp [file_fav_key_strip]
  have hall : ∀ it ∈ favs.files,
      file_fav_key it.identifier it.filename
        ≠ file_fav_key (pyStrip item.identifier) (pyStrip f.name) := by
    intro it hit
    have := List.any_eq_false.mp hnew' it hit
    simpa using this
  simp only [if_neg hne, hfav, ite_true]
  have hfilter : (({ favs with files :=
      ⟨item.identifier, item.title, item.year, item.creator, f.name, f.size, f.fmt⟩
        :: favs.files } : Favs).files.filter
        (fun it => file_fav_key it.identifier it.filename
          ≠ file_fav_key (pyStrip item.identifier) (pyStrip f.name))) = favs.files := by
    simp only [List.filter_cons]
    rw [if_neg (by simp [file_fav_key_strip])]
    exact List.filter_eq_self.mpr (fun it hit => by simpa using hall it hit)
  rw [hfilter]

/-- C8: the favorites toggles are involutive on a store where the key is
not yet favorited: favoriting then unfavoriting the same item identifier
(resp. the same identifier+filename composite key) restores exactly the
prior store contents. -/
theorem C8_fav_toggle_roundtrip (favs : Favs) (r : SearchResult)
    (item : SearchResult) (f : IAFile)
    (hid : pyStrip r.identifier ≠ "")
    (hnew : is_fav_item favs r.identifier = false)
    (hid2 : pyStrip item.identifier ≠ "")
    (hfn : pyStrip f.name ≠ "")
    (hnew2 : is_fav_file favs item.identifier f.name = false) :
    toggle_fav_item (toggle_fav_item favs r) r = favs
    ∧ toggle_fav_file (toggle_fav_file favs item f) item f = favs :=
  ⟨toggle_fav_item_roundtrip favs r hid hnew,
   toggle_fav_file_roundtrip favs item f hid2 hfn hnew2⟩

/-- Witness for C8 on a concrete non-empty store: toggling a fresh item and
a fresh file twice restores the store. -/
theorem C8_fav_toggle_roundtrip_witness :
    toggle_fav_item (toggle_fav_item
        ⟨[⟨"olditem", "Old", "1999", "someone"⟩], [⟨"oldid", "Old", "1999", "someone", "a.mp4", 7, "MPEG4"⟩]⟩
        ⟨"newitem", "New", "2001", "else"⟩)
      ⟨"newitem", "New", "2001", "else"⟩
      = ⟨[⟨"olditem", "Old", "1999", "someone"⟩], [⟨"oldid", "Old", "1999", "someone", "a.mp4", 7, "MPEG4"⟩]⟩
    ∧ toggle_fav_file (toggle_fav_file
        ⟨[⟨"olditem", "Old", "1999", "someone"⟩], [⟨"oldid", "Old", "1999", "someone", "a.mp4", 7, "MPEG4"⟩]⟩
        ⟨"newitem", "New", "2001", "else"⟩ ⟨"b.mkv", 9, "Matroska"⟩)
      ⟨"newitem", "New", "2001", "else"⟩ ⟨"b.mkv", 9, "Matroska"⟩
      = ⟨[⟨"olditem", "Old", "1999", "someone"⟩], [⟨"oldid", "Old", "1999", "someone", "a.mp4", 7, "MPEG4"⟩]⟩ :=
  C8_fav_toggle_roundtrip _ _ _ _ (by decide) (by decide) (by decide) (by decide) (by decide)


/-! Download orchestrator exit handling (`_verify_expected_size` lines
1118-1125, and the child-exit branch of `_download_one_with_progress` lines
1189-1205 / `_download_glob_with_progress` lines 1273-1285). The polling
loop only renders progress; the reported result is a function of the state
observed when `p.poll()` returns an exit code: the cancel flag, the exit
code, the child's captured stderr/stdout, and the staged file's on-disk
size (`safe_getsize` of the staging path). Result messages are modelled by
`DlMsg`; the size-mismatch constructor carries the raw sizes whose
`human_size` rendering (float formatting) the source interpolates into its
message string. -/

inductive DlMsg where
  /-- The empty message `""` returned on success. -/
  | noMsg : DlMsg
  /-- Message `"Canceled."`. -/
  | canceled : DlMsg
  /-- The non-zero-exit message: `(err or out or "").strip()` if non-empty,
  else `f"download failed (code {rc})"`. -/
  | childError (msg : String) : DlMsg
  /-- Message `f"Size mismatch for {filename}: got ... expected ..."`. -/
  | sizeMismatch (filename : String) (got expected : Int) : DlMsg
deriving DecidableEq

/-- Check `_verify_expected_size`: skipped (success) when the expected size is
non-positive; otherwise the staged size must equal the expected size. The
staged size (`safe_getsize` of `staging_file_path identifier filename`) is
passed in as `actual`. -/
def verify_expected_size (filename : String) (expected_size actual : Int) :
    Bool × DlMsg :=
  if expected_size ≤ 0 then (true, DlMsg.noMsg)
  else if actual ≠ expected_size then
    (false, DlMsg.sizeMismatch filename actual expected_size)
  else (true, DlMsg.noMsg)

/-- The child-exit branch of `_download_one_with_progress`: cancellation
wins over everything, then a non-zero exit code, then the post-hoc size
check. -/
def download_one_exit (cancel_requested : Bool) (rc : Int) (out err : String)
    (filename : String) (expected_size actual : Int) : Bool × DlMsg :=
  if cancel_requested then (false, DlMsg.canceled)
  else if rc ≠ 0 then
    (false, DlMsg.childError
      (pyOr (pyStrip (pyOr err (pyOr out "")))
        ("download failed (code " ++ toString rc ++ ")")))
  else
    let v := verify_expected_size filename expected_size actual
    if v.1 = false then (false, v.2) else (true, DlMsg.noMsg)

/-- The child-exit branch of `_download_glob_with_progress`: same shape,
with no size check in the loop (each expected file is verified afterwards
by the caller). -/
def download_glob_exit (cancel_requested : Bool) (rc : Int) (out err : String) :
    Bool × DlMsg :=
  if cancel_requested then (false, DlMsg.canceled)
  else if rc ≠ 0 then
    (false, DlMsg.childError
      (pyOr (pyStrip (pyOr err (pyOr out "")))
        ("download failed (code " ++ toString rc ++ ")")))
  else (true, DlMsg.noMsg)

/-- C5: for a single-file transfer with a non-zero (and, per the data
model, non-negative) expected size, a clean child exit (code 0, no cancel)
with a staged size different from the expected size is reported as a
size-mismatch failure; and the size check is skipped (the transfer reported
successful regardless of the staged size) only in the expected-size-0
case. -/
theorem C5_size_mismatch_is_failure (filename out err : String)
    (expected actual : Int)
    (hnz : expected ≠ 0) (hnn : 0 ≤ expected) (hne : actual ≠ expected) :
    download_one_exit false 0 out err filename expected actual
      = (false, DlMsg.sizeMismatch filename actual expected)
    ∧ (∀ a : Int, download_one_exit false 0 out err filename 0 a
        = (true, DlMsg.noMsg)) := by
  constructor
  · have hpos : ¬ expected ≤ 0 := by omega
    simp [download_one_exit, verify_expected_size, hpos, hne]
  · intro a
    simp [download_one_exit, verify_expected_size]

/-- Witness for C5: expected 100 bytes, staged 37 bytes, child exited 0. -/
theorem C5_size_mismatch_is_failure_witness :
    download_one_exit false 0 "" "" "movie.mkv" 100 37
      = (false, DlMsg.sizeMismatch "movie.mkv" 37 100)
    ∧ (∀ a : Int, download_one_exit false 0 "" "" "movie.mkv" 0 a
        = (true, DlMsg.noMsg)) :=
  C5_size_mismatch_is_failure "movie.mkv" "" "" 100 37
    (by decide) (by decide) (by decide)

/-- C6: if cancellation was requested before the child exited, both the
single-file and the glob transfer report a canceled failure, for every
exit code, child output and staged/expected size — in particular the size
check is never consulted. -/
theorem C6_cancel_overrides_exit (rc : Int) (out err filename : String)
    (expected actual : Int) :
    download_one_exit true rc out err filename expected actual
      = (false, DlMsg.canceled)
    ∧ download_glob_exit true rc out err = (false, DlMsg.canceled) := by
  constructor
  · simp [download_one_exit]
  · simp [download_glob_exit]

/-! Query builder and search/pagination (`build_query` lines 174-198,
`do_search` lines 800-819, `next_page` lines 821-835, `prev_page` lines
837-854). The external search call `ia_search_via_curl(query, rows, page)`
is passed in as an oracle `searchFn` returning the parsed result list and
an error string (empty on success); on error the real call returns an empty
list together with the message. `ROWS_PER_PAGE = 30`. -/

/-- Query builder `build_query`: pass through queries that already look advanced,
otherwise optionally wrap in a title qualifier and append a mediatype
qualifier. -/
def build_query (user_text media_filter : String) (title_only : Bool) : String :=
  let s := pyStrip user_text
  if s = "" then ""
  else
    let up := upperStr s
    let looks_advanced :=
      strHas s "mediatype:" || strHas s "title:" || strHas s "collection:" ||
      strHas s "identifier:" || strHas s "licenseurl:" || strHas s "rights:" ||
      strHas up " AND " || strHas up " OR "
    if looks_advanced then s
    else
      let base := if title_only then "title:(\"" ++ s ++ "\")" else s
      if media_filter ≠ "" ∧ media_filter ≠ "any" then
        base ++ " AND mediatype:" ++ media_filter
      else base

/-- The slice of the application state read and written by search and
pagination. -/
structure AppSt where
  mode : String
  focus : String
  menu_idx : Nat
  status : String
  query_text : String
  query_built : String
  filter : String
  title_only : Bool
  page : Nat
  results : List SearchResult
  sel_r : Nat
deriving DecidableEq

/-- Search action `do_search`: optionally reset the page, rebuild the query, bail out on
an empty query, then overwrite `results` with the oracle's answer (the
tuple assignment stores the result list even when an error string comes
back) and on success reset the selection and switch to the results list. -/
def do_search (searchFn : String → Nat → Nat → List SearchResult × String)
    (reset_page : Bool) (s : AppSt) : AppSt :=
  let s := if reset_page then { s with page := 1 } else s
  let qb := build_query s.query_text s.filter s.title_only
  let s := { s with query_built := qb }
  if qb = "" then { s with status := "Select [Search] in the menu to search." }
  else
    let s := { s with status := "Searching..." }
    let (res, err) := searchFn qb 30 s.page
    let s := { s with results := res }
    if err ≠ "" then { s with status := err }
    else
      { s with
        sel_r := 0
        mode := "RESULTS"
        focus := "LIST"
        status := "Found " ++ toString res.length
          ++ " results. Use arrows, then [Open]." }

/-- Pagination action `next_page`: bump the page, re-run the search, and if the result list
came back empty roll the page counter back; menu focus is restored either
way. -/
def next_page (searchFn : String → Nat → Nat → List SearchResult × String)
    (s : AppSt) : AppSt :=
  if s.query_text = "" then
    { s with status := "No search yet. Choose [Search]." }
  else
    let saved_focus := s.focus
    let saved_menu_idx := s.menu_idx
    let saved_page := s.page
    let s := { s with page := s.page + 1 }
    let s := do_search searchFn false s
    let s :=
      if s.results = [] then
        { s with
          page := saved_page
          status := "No more results (rolled back to previous page)." }
      else s
    { s with focus := saved_focus, menu_idx := saved_menu_idx }

/-- Pagination action `prev_page`: refuse below page 1; otherwise decrement, re-run, and roll
back on an empty result list. -/
def prev_page (searchFn : String → Nat → Nat → List SearchResult × String)
    (s : AppSt) : AppSt :=
  if s.query_text = "" then
    { s with status := "No search yet. Choose [Search]." }
  else if s.page ≤ 1 then
    { s with status := "Already on first page." }
  else
    let saved_focus := s.focus
    let saved_menu_idx := s.menu_idx
    let saved_page := s.page
    let s := { s with page := s.page - 1 }
    let s := do_search searchFn false s
    let s :=
      if s.results = [] then
        { s with
          page := saved_page
          status := "No results on that page (rolled back)." }
      else s
    { s with focus := saved_focus, menu_idx := saved_menu_idx }

/-- A search oracle with one result on page 1 and nothing afterwards. -/
def c1SearchStub : String → Nat → Nat → List SearchResult × String :=
  fun _q _rows page =>
    if page = 1 then ([⟨"item-1", "Only Hit", "", ""⟩], "") else ([], "")

/-- A state sitting on the non-empty page 1. -/
def c1State : AppSt :=
  { mode := "RESULTS", focus := "MENU", menu_idx := 5, status := "Ready",
    query_text := "x", query_built := "x", filter := "any",
    title_only := false, page := 1,
    results := [⟨"item-1", "Only Hit", "", ""⟩], sel_r := 0 }

/-- Counterexample to C1 as stated: paging forward from a non-empty page 1
to an empty page 2 rolls the page counter back, but the previously
displayed result set is NOT retained — `do_search` has already overwritten
`results` with the new page's empty list. -/
theorem C1_counterexample :
    c1SearchStub (build_query c1State.query_text c1State.filter c1State.title_only)
        30 (c1State.page + 1) = ([], "")
    ∧ (next_page c1SearchStub c1State).page = c1State.page
    ∧ (next_page c1SearchStub c1State).results ≠ c1State.results
    ∧ (next_page c1SearchStub c1State).results = [] := by
  refine ⟨by decide, by decide, by decide, by decide⟩

/-- C1 amended: when the re-run query succeeds with zero results, both
`next_page` and `prev_page` roll the page counter back to its value before
the attempt and restore the menu focus, but the result set is replaced by
the new page's empty list rather than left untouched. -/
theorem C1_empty_page_rollback
    (searchFn : String → Nat → Nat → List SearchResult × String) (s : AppSt)
    (hq : s.query_text ≠ "")
    (hb : build_query s.query_text s.filter s.title_only ≠ "")
    (hnext : searchFn (build_query s.query_text s.filter s.title_only)
        30 (s.page + 1) = ([], ""))
    (hpage : 2 ≤ s.page)
    (hprev : searchFn (build_query s.query_text s.filter s.title_only)
        30 (s.page - 1) = ([], "")) :
    ((next_page searchFn s).page = s.page
      ∧ (next_page searchFn s).results = []
      ∧ (next_page searchFn s).focus = s.focus
      ∧ (next_page searchFn s).menu_idx = s.menu_idx)
    ∧ ((prev_page searchFn s).page = s.page
      ∧ (prev_page searchFn s).results = []
      ∧ (prev_page searchFn s).focus = s.focus
      ∧ (prev_page searchFn s).menu_idx = s.menu_idx) := by
  have hnp : ¬ s.page ≤ 1 := by omega
  constructor
  · unfold next_page do_search
    simp [hq, hb, hnext]
  · unfold prev_page do_search
    simp [hq, hb, hnp, hprev]

/-- Witness for the amended C1 on page 2 of a query whose pages are all
empty upstream. -/
theorem C1_empty_page_rollback_witness :
    ((next_page (fun _ _ _ => ([], ""))
        { c1State with page := 2, results := [⟨"item-1", "Only Hit", "", ""⟩] }).page = 2
      ∧ (next_page (fun _ _ _ => ([], ""))
        { c1State with page := 2, results := [⟨"item-1", "Only Hit", "", ""⟩] }).results = []
      ∧ (next_page (fun _ _ _ => ([], ""))
        { c1State with page := 2, results := [⟨"item-1", "Only Hit", "", ""⟩] }).focus = "MENU"
      ∧ (next_page (fun _ _ _ => ([], ""))
        { c1State with page := 2, results := [⟨"item-1", "Only Hit", "", ""⟩] }).menu_idx = 5)
    ∧ ((prev_page (fun _ _ _ => ([], ""))
        { c1State with page := 2, results := [⟨"item-1", "Only Hit", "", ""⟩] }).page = 2
      ∧ (prev_page (fun _ _ _ => ([], ""))
        { c1State with page := 2, results := [⟨"item-1", "Only Hit", "", ""⟩] }).results = []
      ∧ (prev_page (fun _ _ _ => ([], ""))
        { c1State with page := 2, results := [⟨"item-1", "Only Hit", "", ""⟩] }).focus = "MENU"
      ∧ (prev_page (fun _ _ _ => ([], ""))
        { c1State with page := 2, results := [⟨"item-1", "Only Hit", "", ""⟩] }).menu_idx = 5) :=
  C1_empty_page_rollback (fun _ _ _ => ([], ""))
    { c1State with page := 2, results := [⟨"item-1", "Only Hit", "", ""⟩] }
    (by decide) (by decide) (by decide) (by decide) (by decide)

/-! Path helpers: `os.path.splitext`, `os.path.basename` and
`os.path.join` (POSIX separator, as used for the fixed absolute roots of
the source). -/

/-- Core of `os.path.splitext`, scanning the reversed character list: find
the last `.`, fail if a `/` comes first (the dot must be inside the last
path component). On success returns (chars before the dot, reversed) and
the extension (dot included). -/
def splitExtRev : List Char → List Char → Option (List Char × List Char)
  | [], _ => none
  | c :: rest, acc =>
    if c = '.' then some (rest, c :: acc)
    else if c = '/' then none
    else splitExtRev rest (c :: acc)

/-- Python `os.path.splitext` on a character list: additionally, the extension
split only happens if the final path component has a non-dot character
before the last dot (so dotfiles like `.bashrc` keep no extension). -/
def splitextL (l : List Char) : List Char × List Char :=
  match splitExtRev l.reverse [] with
  | none => (l, [])
  | some (restRev, ext) =>
    if (restRev.takeWhile (fun c => c ≠ '/')).any (fun c => c ≠ '.') then
      (restRev.reverse, ext)
    else (l, [])

/-- Python `os.path.splitext` on a string. -/
def splitext (s : String) : String × String :=
  ((⟨(splitextL s.data).1⟩ : String), (⟨(splitextL s.data).2⟩ : String))

/-- Python `os.path.basename` on a character list: everything after the last
separator. -/
def basenameL (l : List Char) : List Char :=
  (l.reverse.takeWhile (fun c => c ≠ '/')).reverse

/-- First character is the separator. -/
def headIsSlash (s : String) : Bool := s.data.head? = some '/'

/-- Last character is the separator. -/
def lastIsSlash (s : String) : Bool := s.data.getLast? = some '/'

/-- Python `posixpath.join` for two components, exactly the cases the source can
reach: an absolute second component restarts the path; otherwise the
separator is inserted unless already present. -/
def os_path_join (a b : String) : String :=
  if headIsSlash b then b
  else if a = "" ∨ lastIsSlash a then a ++ b
  else a ++ "/" ++ b

theorem splitExtRev_spec :
    ∀ (rvl acc r e : List Char), splitExtRev rvl acc = some (r, e) →
      ∃ m : List Char, e = m ++ acc ∧ rvl = m.reverse ++ r ∧ ∀ c ∈ m, c ≠ '/'
  | [], acc, r, e, h => by simp [splitExtRev] at h
  | c :: rest, acc, r, e, h => by
    by_cases hdot : c = '.'
    · subst hdot
      simp only [splitExtRev, if_true, if_pos rfl, Option.some.injEq, Prod.mk.injEq] at h
      obtain ⟨h1, h2⟩ := h
      subst h1; subst h2
      exact ⟨['.'], by simp, by simp, by intro x hx; simp at hx; simp [hx]⟩
    · by_cases hsl : c = '/'
      · simp [splitExtRev, hdot, hsl] at h
      · have h' : splitExtRev rest (c :: acc) = some (r, e) := by
          simpa [splitExtRev, hdot, hsl] using h
        obtain ⟨m, hm1, hm2, hm3⟩ := splitExtRev_spec rest (c :: acc) r e h'
        refine ⟨m ++ [c], ?_, ?_, ?_⟩
        · simp [hm1]
        · simp [hm2]
        · intro x hx
          simp at hx
          rcases hx with hx | hx
          · exact hm3 x hx
          · simpa [hx] using hsl

/-- The two halves of `splitextL` reassemble the input. -/
theorem splitextL_append (l : List Char) :
    (splitextL l).1 ++ (splitextL l).2 = l := by
  unfold splitextL
  cases h : splitExtRev l.reverse [] with
  | none => simp
  | some pr =>
    obtain ⟨restRev, ext⟩ := pr
    obtain ⟨m, hm1, hm2, _⟩ := splitExtRev_spec l.reverse [] restRev ext h
    have hl : l = restRev.reverse ++ m := by
      have := congrArg List.reverse hm2
      simpa using this
    dsimp only
    by_cases hc : (restRev.takeWhile (fun c => c ≠ '/')).any (fun c => c ≠ '.') = true
    · rw [if_pos hc]
      simp [hl, hm1]
    · rw [if_neg hc]
      simp

/-- The extension computed by `splitextL` contains no separator. -/
theorem splitextL_ext_no_slash (l : List Char) :
    ∀ c ∈ (splitextL l).2, c ≠ '/' := by
  unfold splitextL
  cases h : splitExtRev l.reverse [] with
  | none => simp
  | some pr =>
    obtain ⟨restRev, ext⟩ := pr
    obtain ⟨m, hm1, _, hm3⟩ := splitExtRev_spec l.reverse [] restRev ext h
    dsimp only
    by_cases hc : (restRev.takeWhile (fun c => c ≠ '/')).any (fun c => c ≠ '.') = true
    · rw [if_pos hc]
      intro c hcmem
      have : c ∈ m := by simpa [hm1] using hcmem
      exact hm3 c this
    · rw [if_neg hc]
      simp

/-! Season/episode detection (`detect_sxxeyy`), year hints
(`has_year_hint`), and video-file classification (`is_video_file`,
the `is_single_large_video` helper of `choose_bucket_and_path`). -/

def digitVal (c : Char) : Nat := c.toNat - '0'.toNat

/-- Match `[Ee](\d{1,2})` at the front of a list (greedy), returning the
episode number. -/
def matchEpPart : List Char → Option Nat
  | e :: d1 :: d2 :: _ =>
    if (e = 'E' || e = 'e') && d1.isDigit then
      if d2.isDigit then some (10 * digitVal d1 + digitVal d2)
      else some (digitVal d1)
    else none
  | [e, d1] =>
    if (e = 'E' || e = 'e') && d1.isDigit then some (digitVal d1) else none
  | _ => none

/-- Match `[Ss](\d{1,2})[Ee](\d{1,2})` at the front of a list, with the
greedy-then-backtrack behaviour of `\d{1,2}` on the season digits. -/
def matchSEAt : List Char → Option (Nat × Nat)
  | s :: d1 :: d2 :: rest =>
    if (s = 'S' || s = 's') && d1.isDigit then
      if d2.isDigit then
        match matchEpPart rest with
        | some ep => some (10 * digitVal d1 + digitVal d2, ep)
        | none =>
          match matchEpPart (d2 :: rest) with
          | some ep => some (digitVal d1, ep)
          | none => none
      else
        match matchEpPart (d2 :: rest) with
        | some ep => some (digitVal d1, ep)
        | none => none
    else none
  | _ => none

/-- Scan driver (`re.search`) for the season/episode pattern: leftmost match. -/
def detectSxxEyyL : List Char → Option (Nat × Nat)
  | [] => none
  | c :: rest =>
    match matchSEAt (c :: rest) with
    | some r => some r
    | none => detectSxxEyyL rest

/-- Detector `detect_sxxeyy`. -/
def detect_sxxeyy (text : String) : Option (Nat × Nat) := detectSxxEyyL text.data

/-- Scan all start positions with a Boolean matcher. -/
def existsAt (f : List Char → Bool) : List Char → Bool
  | [] => f []
  | c :: rest => f (c :: rest) || existsAt f rest

/-- Match `\((19|20)\d{2}\)` at a position. -/
def parenYearAt : List Char → Bool
  | '(' :: a :: b :: c :: d :: ')' :: _ =>
    ((a = '1' && b = '9') || (a = '2' && b = '0')) && c.isDigit && d.isDigit
  | _ => false

/-- Match `(19|20)\d{2}` at a position. -/
def bareYearAt : List Char → Bool
  | a :: b :: c :: d :: _ =>
    ((a = '1' && b = '9') || (a = '2' && b = '0')) && c.isDigit && d.isDigit
  | _ => false

/-- The `has_year_hint` helper of `choose_bucket_and_path`: empty strings
have no hint, otherwise either an unanchored parenthesised or bare
`(19|20)\d{2}` match counts. -/
def has_year_hint (s : String) : Bool :=
  if s = "" then false
  else existsAt parenYearAt s.data || existsAt bareYearAt s.data

def VIDEO_EXTS : List String := [".mp4", ".mkv", ".avi", ".mov", ".webm", ".m4v"]

def VIDEO_FORMAT_HINTS : List String :=
  ["h.264", "h264", "mpeg4", "mp4", "matroska", "webm", "quicktime", "avi"]

/-- Predicate `is_video_file`: by lower-cased extension, else by a format-text hint. -/
def is_video_file (name fmt : String) : Bool :=
  let ext : String := ⟨(splitextL (lowerStr name).data).2⟩
  if VIDEO_EXTS.contains ext then true
  else VIDEO_FORMAT_HINTS.any (fun h => strHas (lowerStr fmt) h)

def LARGE_VIDEO_BYTES : Int := 500 * 1024 * 1024

/-- The `is_single_large_video` helper: the named file is the unique
video-like file of at least 500 MiB in the loaded file list. -/
def is_single_large_video (files : List IAFile) (name : String) : Bool :=
  let video_files := files.filter (fun f => is_video_file f.name f.fmt)
  let large := video_files.filter (fun f => LARGE_VIDEO_BYTES ≤ f.size)
  match large with
  | [f] => f.name = name
  | _ => false

/-- The bucket decision of `choose_bucket_and_path` (lines 920-932): start
from the last UI-selected bucket (coerced to "Other" if invalid), force
"TV" on a season/episode match in filename or title, else force "Movies"
on a year hint or a single-large-video match, else keep the last bucket. -/
def chooseBucket (last_bucket : String) (files : List IAFile)
    (filename item_title : String) : String :=
  let ep := match detect_sxxeyy filename with
    | some r => some r
    | none => detect_sxxeyy item_title
  let bucket :=
    if last_bucket = "TV" ∨ last_bucket = "Movies" ∨ last_bucket = "Other" then
      last_bucket
    else "Other"
  if ep.isSome then "TV"
  else if has_year_hint filename || has_year_hint item_title
      || is_single_large_video files filename then "Movies"
  else bucket

/-- Counterexample to C2 as stated: a file with no season/episode pattern,
no year, and no single-large-video status does NOT go to the Other bucket
when the last UI-selected bucket is "TV" — the prior UI state decides. -/
theorem C2_counterexample :
    detect_sxxeyy "notes.txt" = none
    ∧ detect_sxxeyy "Some Notes" = none
    ∧ has_year_hint "notes.txt" = false
    ∧ has_year_hint "Some Notes" = false
    ∧ is_single_large_video [⟨"notes.txt", 1024, "Text"⟩] "notes.txt" = false
    ∧ chooseBucket "TV" [⟨"notes.txt", 1024, "Text"⟩] "notes.txt" "Some Notes" = "TV"
    ∧ chooseBucket "TV" [⟨"notes.txt", 1024, "Text"⟩] "notes.txt" "Some Notes" ≠ "Other" := by
  refine ⟨by decide, by decide, by decide, by decide, by decide, by decide, by decide⟩

/-- C2 amended: when none of the heuristics fire (no season/episode match
in filename or title, no year hint in either, not the single large video),
the bucket is the last UI-selected bucket, coerced to "Other" only when
that stored value is not one of TV/Movies/Other. -/
theorem C2_fallback_is_last_bucket (last_bucket filename item_title : String)
    (files : List IAFile)
    (h1 : detect_sxxeyy filename = none)
    (h2 : detect_sxxeyy item_title = none)
    (h3 : has_year_hint filename = false)
    (h4 : has_year_hint item_title = false)
    (h5 : is_single_large_video files filename = false) :
    chooseBucket last_bucket files filename item_title
      = (if last_bucket = "TV" ∨ last_bucket = "Movies" ∨ last_bucket = "Other"
          then last_bucket else "Other") := by
  unfold chooseBucket
  simp [h1, h2, h3, h4, h5]

/-- Witness for the amended C2: with last bucket "TV" the fallback keeps
"TV"; with an invalid stored value it coerces to "Other". -/
theorem C2_fallback_is_last_bucket_witness :
    chooseBucket "TV" [⟨"notes.txt", 1024, "Text"⟩] "notes.txt" "Some Notes"
      = (if ("TV" : String) = "TV" ∨ ("TV" : String) = "Movies" ∨ ("TV" : String) = "Other"
          then "TV" else "Other") :=
  C2_fallback_is_last_bucket "TV" "notes.txt" "Some Notes"
    [⟨"notes.txt", 1024, "Text"⟩]
    (by decide) (by decide) (by decide) (by decide) (by decide)

/-! Folder-name sanitisation (`sanitize_folder`, lines 116-120) and the
movie folder-name heuristic (`auto_clean_movie_folder_name`, lines
138-171). -/

/-- The characters removed by `sanitize_folder`:
`/ \ : * ? " < > |`. -/
def badChar (c : Char) : Bool :=
  c = '/' || c = '\\' || c = ':' || c = '*' || c = '?' || c = '"' ||
  c = '<' || c = '>' || c = '|'

/-- Worker for `collapseRuns`: the flag records whether the previous input
character was part of a run (in which case further run characters are
swallowed instead of emitting `r` again). -/
def collapseRunsAux (p : Char → Bool) (r : Char) : Bool → List Char → List Char
  | _, [] => []
  | inRun, c :: rest =>
    if p c then
      if inRun then collapseRunsAux p r true rest
      else r :: collapseRunsAux p r true rest
    else c :: collapseRunsAux p r false rest

/-- Replace every maximal run of characters satisfying `p` by the single
character `r`: the effect of `re.sub("[...]+", r, s)` for a character
class. -/
def collapseRuns (p : Char → Bool) (r : Char) (l : List Char) : List Char :=
  collapseRunsAux p r false l

/-- Cleaner `sanitize_folder`: strip, delete the forbidden characters, collapse
whitespace runs to single spaces, strip again, and fall back to
`"Unknown"` when nothing is left. -/
def sanitize_folder (name : String) : String :=
  let l0 := pyStripL name.data
  let l1 := l0.filter (fun c => !badChar c)
  let l2 := pyStripL (collapseRuns isPySpace ' ' l1)
  if l2 = [] then "Unknown" else (⟨l2⟩ : String)

/-- Word characters for the `\b` boundary (`[A-Za-z0-9_]`; all strings the
source matches are ASCII). -/
def isWordChar (c : Char) : Bool := c.isAlphanum || c = '_'

/-- Match `\b(19\d{2}|20\d{2})\b` at a position: `prev` is the character
just before the position (`none` at the string start). On success returns
the four matched characters. -/
def yearMatchAt (prev : Option Char) : List Char → Option (List Char)
  | a :: b :: c :: d :: rest =>
    if ((a = '1' && b = '9') || (a = '2' && b = '0')) && c.isDigit && d.isDigit
        && (match prev with | none => true | some pc => !isWordChar pc)
        && (match rest with | [] => true | e :: _ => !isWordChar e) then
      some [a, b, c, d]
    else none
  | _ => none

/-- Scan driver (`re.search`) for the year pattern: returns the prefix before the
leftmost match together with the matched year characters. -/
def yearSearchAux : List Char → Option Char → List Char → Option (List Char × List Char)
  | _, _, [] => none
  | acc, prev, c :: rest =>
    match yearMatchAt prev (c :: rest) with
    | some y => some (acc.reverse, y)
    | none => yearSearchAux (c :: acc) (some c) rest

def yearSearchL (l : List Char) : Option (List Char × List Char) :=
  yearSearchAux [] none l

/-- The scene-release tag alternation of `auto_clean_movie_folder_name`'s
`scene_rx`, expanded into the ordered list of literal alternatives that the
regex engine tries at each position (optional parts in greedy-first
backtracking order: `aac2?\.0` gives `aac2.0` then `aac.0`;
`dts(?:-?hd)?` gives `dts-hd`, `dtshd`, `dts`; `ddp?5?\.1` gives
`ddp5.1`, `ddp.1`, `dd5.1`, `dd.1`). Matching is case-insensitive. -/
def SCENE_TAGS : List String :=
  ["2160p", "1080p", "720p", "480p",
   "bluray", "brrip", "bdrip", "webrip", "web-dl", "hdrip", "dvdrip",
   "x264", "x265", "h264", "h265", "hevc", "av1",
   "aac2.0", "aac.0", "aac", "dts-hd", "dtshd", "dts",
   "ddp5.1", "ddp.1", "dd5.1", "dd.1", "ac3",
   "proper", "repack", "extended", "remastered", "unrated",
   "yify", "yts", "rarbg"]

/-- Case-insensitive literal match at the front of a list; returns the
remainder on success. Tags are stored lower-case. -/
def sceneTryTag : List Char → List Char → Option (List Char)
  | [], l => some l
  | _ :: _, [] => none
  | t :: ts, c :: cs => if c.toLower = t then sceneTryTag ts cs else none

/-- Match the scene-tag alternation (with surrounding `\b`) at a position.
Returns the last character of the matched text (lower-cased; `isWordChar`
is case-insensitive on letters, so this is equivalent for the boundary
check of the next scan position) and the remainder. -/
def sceneMatchAt (prev : Option Char) (l : List Char) : Option (Char × List Char) :=
  if (match prev with | none => true | some pc => !isWordChar pc) then
    SCENE_TAGS.findSome? (fun tag =>
      match sceneTryTag tag.data l with
      | some rem =>
        if (match rem with | [] => true | e :: _ => !isWordChar e) then
          some (tag.data.getLastD ' ', rem)
        else none
      | none => none)
  else none

/-- Substitution `scene_rx.sub(" ", s)` driver, with a fuel argument for structural
recursion: every successful match consumes at least one character (every
tag is non-empty), so fuel equal to the input length is always enough and
the fuel-exhausted branch is unreachable. `prev` carries the character
preceding the current position for the `\b` check. -/
def sceneSubFuel : Nat → Option Char → List Char → List Char
  | 0, _, l => l
  | _ + 1, _, [] => []
  | fuel + 1, prev, c :: rest =>
    match sceneMatchAt prev (c :: rest) with
    | some (lc, rem) => ' ' :: sceneSubFuel fuel (some lc) rem
    | none => c :: sceneSubFuel fuel (some c) rest

/-- Substitution `scene_rx.sub(" ", s)`: scan left to right, replacing each match by a
single space and resuming after it. -/
def sceneSubAux (prev : Option Char) (l : List Char) : List Char :=
  sceneSubFuel l.length prev l

/-- The bracket characters mapped to spaces by the first substitution. -/
def bracketChar (c : Char) : Bool :=
  c = '[' || c = ']' || c = '(' || c = ')' || c = '\x7b' || c = '\x7d'

/-- Separator run class `[._]+`. -/
def isDotUnder (c : Char) : Bool := c = '.' || c = '_'

/-- The `.strip(" -._")` character set. -/
def isTrimChar (c : Char) : Bool := c = ' ' || c = '-' || c = '.' || c = '_'

/-- Heuristic `auto_clean_movie_folder_name`: prefer the item title, reduce to the
extension-free basename, blank out brackets, turn `[._]` runs into spaces,
collapse whitespace; find a word-bounded 19xx/20xx year, cut the string at
the match, strip scene-release tags case-insensitively, tidy up, and
re-attach the year in parentheses. -/
def auto_clean_movie_folder_name (item_title filename : String) : String :=
  let raw0 :=
    if pyStripL item_title.data ≠ [] then pyStripL item_title.data
    else pyStripL filename.data
  let raw1 := basenameL raw0
  let raw2 := (splitextL raw1).1
  let raw3 := raw2.map (fun c => if bracketChar c then ' ' else c)
  let raw4 := collapseRuns isDotUnder ' ' raw3
  let raw := pyStripL (collapseRuns isPySpace ' ' raw4)
  let parts :=
    match yearSearchL raw with
    | some (pre, y) => (pre, some y)
    | none => (raw, (none : Option (List Char)))
  let tp1 := sceneSubAux none parts.1
  let tp2 := pyStripSet isTrimChar (collapseRuns isPySpace ' ' tp1)
  let cleaned_title := sanitize_folder (⟨if tp2 ≠ [] then tp2 else raw⟩ : String)
  match parts.2 with
  | some y => sanitize_folder (cleaned_title ++ " (" ++ (⟨y⟩ : String) ++ ")")
  | none => cleaned_title

/-- C9: the scene-release filename with no season/episode pattern and no
item title is bucketed as a feature for every prior UI bucket selection and
every file list, and cleans to `Movie Title (2020)`. -/
theorem C9_scene_filename_cleaning :
    (∀ (last_bucket : String) (files : List IAFile),
      chooseBucket last_bucket files
        "Movie.Title.2020.1080p.BluRay.x264-GROUP.mkv" "" = "Movies")
    ∧ auto_clean_movie_folder_name "" "Movie.Title.2020.1080p.BluRay.x264-GROUP.mkv"
        = "Movie Title (2020)" := by
  constructor
  · intro last_bucket files
    unfold chooseBucket
    have h1 : detect_sxxeyy "Movie.Title.2020.1080p.BluRay.x264-GROUP.mkv" = none := by
      decide
    have h2 : detect_sxxeyy "" = none := by decide
    have h3 : has_year_hint "Movie.Title.2020.1080p.BluRay.x264-GROUP.mkv" = true := by
      decide
    simp [h1, h2, h3]
  · decide

/-! Import collision handling (`choose_bucket_and_path`, lines 1005-1011):
if the computed destination path exists, a timestamp is inserted before
the extension, and the staged file is moved (`shutil.move`; for a
same-volume rename this silently replaces an existing regular file at the
target). The filesystem is modelled as an association list from paths to
file contents; `os.path.exists` is lookup success. -/

/-- The collision step: existence check, then timestamp insertion before
the extension. -/
def resolve_collision (exq : String → Bool) (stamp final_path : String) : String :=
  if exq final_path then
    (splitext final_path).1 ++ "_" ++ stamp ++ (splitext final_path).2
  else final_path

/-- Python `shutil.move` on the association-list filesystem: no-op when the source
is missing, otherwise the source entry is removed and its content placed at
the destination (replacing any file already there). -/
def fsMove (fs : List (String × Nat)) (src dst : String) : List (String × Nat) :=
  match fs.lookup src with
  | none => fs
  | some v => (dst, v) :: fs.filter (fun e => e.1 != src && e.1 != dst)

/-- Lines 1005-1011 as one step: resolve the collision against the current
filesystem, then move the staged file to the resolved path. Returns the
resolved path and the updated filesystem. -/
def import_step (fs : List (String × Nat)) (stamp staging final_path : String) :
    String × List (String × Nat) :=
  let dst := resolve_collision (fun q => (fs.lookup q).isSome) stamp final_path
  (dst, fsMove fs staging dst)

theorem splitext_append (s : String) :
    (splitext s).1 ++ (splitext s).2 = s := by
  unfold splitext
  have h := splitextL_append s.data
  show String.mk ((splitextL s.data).1 ++ (splitextL s.data).2) = s
  rw [h]

theorem lookup_filter_ne (fs : List (String × Nat)) (k a b : String)
    (hka : k ≠ a) (hkb : k ≠ b) :
    (fs.filter (fun e => e.1 != a && e.1 != b)).lookup k = fs.lookup k := by
  induction fs with
  | nil => rfl
  | cons x t ih =>
    obtain ⟨xk, xv⟩ := x
    by_cases hkeep : (xk != a && xk != b) = true
    · simp only [List.filter_cons]
      rw [if_pos hkeep]
      by_cases hk : k = xk
      · simp [List.lookup, hk]
      · have hk' : (k == xk) = false := by simpa using hk
        simp [List.lookup, hk', ih]
    · simp only [List.filter_cons]
      rw [if_neg hkeep]
      have hk : (k == xk) = false := by
        simp only [Bool.and_eq_true, bne_iff_ne, ne_eq, not_and_or, not_not] at hkeep
        rcases hkeep with h | h
        · simpa [h] using hka
        · simpa [h] using hkb
      simp [List.lookup, hk, ih]

/-- The length of the timestamped path strictly exceeds the original. -/
theorem stamped_ne (base ext stamp : String) :
    base ++ "_" ++ stamp ++ ext ≠ base ++ ext := by
  intro h
  have := congrArg String.length h
  simp only [String.length_append] at this
  have hone : ("_" : String).length = 1 := rfl
  omega

/-- C7 amended: when the computed destination already exists, the staged
file is moved to the timestamp-suffixed path, which differs from the
computed destination, and the pre-existing file at the computed destination
keeps its content. (The suffixed path itself is not re-checked, see the
counterexample.) -/
theorem C7_collision_keeps_existing (fs : List (String × Nat))
    (stamp staging dest : String) (c v : Nat)
    (hdest : fs.lookup dest = some c)
    (hstag : fs.lookup staging = some v)
    (hne : staging ≠ dest) :
    (import_step fs stamp staging dest).1 ≠ dest
    ∧ (import_step fs stamp staging dest).1
        = (splitext dest).1 ++ "_" ++ stamp ++ (splitext dest).2
    ∧ (import_step fs stamp staging dest).2.lookup dest = some c := by
  have hex : (fs.lookup dest).isSome = true := by rw [hdest]; rfl
  have hres : resolve_collision (fun q => (fs.lookup q).isSome) stamp dest
      = (splitext dest).1 ++ "_" ++ stamp ++ (splitext dest).2 := by
    unfold resolve_collision
    rw [if_pos hex]
  have hdst_ne : (splitext dest).1 ++ "_" ++ stamp ++ (splitext dest).2 ≠ dest := by
    conv_rhs => rw [← splitext_append dest]
    exact stamped_ne _ _ _
  refine ⟨?_, ?_, ?_⟩
  · show resolve_collision (fun q => (fs.lookup q).isSome) stamp dest ≠ dest
    rw [hres]; exact hdst_ne
  · show resolve_collision (fun q => (fs.lookup q).isSome) stamp dest = _
    exact hres
  · show (fsMove fs staging
        (resolve_collision (fun q => (fs.lookup q).isSome) stamp dest)).lookup dest = some c
    rw [hres]
    unfold fsMove
    rw [hstag]
    have hd : (dest == (splitext dest).1 ++ "_" ++ stamp ++ (splitext dest).2) = false := by
      simpa using fun hcontra => hdst_ne hcontra.symm
    simp only [List.lookup, hd]
    exact lookup_filter_ne fs dest staging _ (Ne.symm hne) (fun hcontra => hdst_ne hcontra.symm) ▸ hdest

/-- Witness for C7 on a concrete filesystem with a collision at the
destination. -/
theorem C7_collision_keeps_existing_witness :
    (import_step [("/media/Movies/F/a.mkv", 1), ("/staging/item/a.mkv", 3)]
        "20240101_120000" "/staging/item/a.mkv" "/media/Movies/F/a.mkv").1
      ≠ "/media/Movies/F/a.mkv"
    ∧ (import_step [("/media/Movies/F/a.mkv", 1), ("/staging/item/a.mkv", 3)]
        "20240101_120000" "/staging/item/a.mkv" "/media/Movies/F/a.mkv").1
      = (splitext "/media/Movies/F/a.mkv").1 ++ "_" ++ "20240101_120000"
          ++ (splitext "/media/Movies/F/a.mkv").2
    ∧ (import_step [("/media/Movies/F/a.mkv", 1), ("/staging/item/a.mkv", 3)]
        "20240101_120000" "/staging/item/a.mkv" "/media/Movies/F/a.mkv").2.lookup
        "/media/Movies/F/a.mkv" = some 1 :=
  C7_collision_keeps_existing
    [("/media/Movies/F/a.mkv", 1), ("/staging/item/a.mkv", 3)]
    "20240101_120000" "/staging/item/a.mkv" "/media/Movies/F/a.mkv" 1 3
    (by decide) (by decide) (by decide)

/-- Counterexample to the universal "an import never overwrites existing
library content": when a file already sits at the exact timestamped path
(e.g. a second colliding import within the same clock second), the move
replaces it — the code checks only the computed destination, not the
suffixed path. -/
theorem C7_counterexample :
    ((([("/media/Movies/F/a.mkv", 1),
        ("/media/Movies/F/a_20240101_120000.mkv", 2),
        ("/staging/item/a.mkv", 3)] : List (String × Nat)).lookup
          "/media/Movies/F/a.mkv").isSome = true)
    ∧ (import_step
        [("/media/Movies/F/a.mkv", 1),
         ("/media/Movies/F/a_20240101_120000.mkv", 2),
         ("/staging/item/a.mkv", 3)]
        "20240101_120000" "/staging/item/a.mkv" "/media/Movies/F/a.mkv").1
      = "/media/Movies/F/a_20240101_120000.mkv"
    ∧ ([("/media/Movies/F/a.mkv", 1),
        ("/media/Movies/F/a_20240101_120000.mkv", 2),
        ("/staging/item/a.mkv", 3)] : List (String × Nat)).lookup
        "/media/Movies/F/a_20240101_120000.mkv" = some 2
    ∧ (import_step
        [("/media/Movies/F/a.mkv", 1),
         ("/media/Movies/F/a_20240101_120000.mkv", 2),
         ("/staging/item/a.mkv", 3)]
        "20240101_120000" "/staging/item/a.mkv" "/media/Movies/F/a.mkv").2.lookup
        "/media/Movies/F/a_20240101_120000.mkv" = some 3 := by
  refine ⟨by decide, by decide, by decide, by decide⟩

/-! Properties of `sanitize_folder`: the result is non-empty, free of the
forbidden characters, and whitespace-collapsed (every whitespace character
is a single interior space). -/

theorem mem_collapseRunsAux (p : Char → Bool) (r : Char) :
    ∀ (l : List Char) (fl : Bool) (c : Char),
      c ∈ collapseRunsAux p r fl l → c = r ∨ (c ∈ l ∧ p c = false)
  | [], fl, c, h => by simp [collapseRunsAux] at h
  | x :: t, fl, c, h => by
    by_cases hp : p x = true
    · cases fl with
      | true =>
        rw [collapseRunsAux, if_pos hp, if_pos rfl] at h
        rcases mem_collapseRunsAux p r t true c h with h' | h'
        · exact Or.inl h'
        · exact Or.inr ⟨List.mem_cons_of_mem x h'.1, h'.2⟩
      | false =>
        rw [collapseRunsAux, if_pos hp] at h
        simp only [Bool.false_eq_true, if_false, List.mem_cons] at h
        rcases h with h' | h'
        · exact Or.inl h'
        · rcases mem_collapseRunsAux p r t true c h' with h'' | h''
          · exact Or.inl h''
          · exact Or.inr ⟨List.mem_cons_of_mem x h''.1, h''.2⟩
    · rw [collapseRunsAux, if_neg hp] at h
      rcases List.mem_cons.mp h with h' | h'
      · subst h'
        exact Or.inr ⟨List.mem_cons_self _ _, by simpa using hp⟩
      · rcases mem_collapseRunsAux p r t false c h' with h'' | h''
        · exact Or.inl h''
        · exact Or.inr ⟨List.mem_cons_of_mem x h''.1, h''.2⟩

/-- With the in-run flag set, the next emitted character fails `p`. -/
theorem collapseRunsAux_true_head (p : Char → Bool) (r : Char) :
    ∀ (l : List Char) (c : Char),
      (collapseRunsAux p r true l).head? = some c → p c = false
  | [], c, h => by simp [collapseRunsAux] at h
  | x :: t, c, h => by
    by_cases hp : p x = true
    · rw [collapseRunsAux, if_pos hp, if_pos rfl] at h
      exact collapseRunsAux_true_head p r t c h
    · rw [collapseRunsAux, if_neg hp] at h
      simp only [List.head?_cons, Option.some.injEq] at h
      subst h
      simpa using hp

theorem chain'_collapseRunsAux (p : Char → Bool) (r : Char) :
    ∀ (l : List Char) (fl : Bool),
      List.Chain' (fun a b => ¬(p a = true ∧ p b = true)) (collapseRunsAux p r fl l)
  | [], fl => by simp [collapseRunsAux]
  | x :: t, fl => by
    by_cases hp : p x = true
    · cases fl with
      | true =>
        rw [collapseRunsAux, if_pos hp, if_pos rfl]
        exact chain'_collapseRunsAux p r t true
      | false =>
        rw [collapseRunsAux, if_pos hp]
        simp only [Bool.false_eq_true, if_false]
        rw [List.chain'_cons']
        refine ⟨?_, chain'_collapseRunsAux p r t true⟩
        intro b hb
        have := collapseRunsAux_true_head p r t b hb
        simp [this]
    · rw [collapseRunsAux, if_neg hp]
      rw [List.chain'_cons']
      refine ⟨?_, chain'_collapseRunsAux p r t false⟩
      intro b _
      simp [hp]

theorem chain'_pyStripSet (p : Char → Bool)
    (R : Char → Char → Prop) (l : List Char)
    (h : List.Chain' R l) : List.Chain' R (pyStripSet p l) := by
  unfold pyStripSet
  have h1 : List.Chain' R (l.dropWhile p) := h.suffix (List.dropWhile_suffix p)
  have h2 : List.Chain' (flip R) (l.dropWhile p).reverse := by
    rw [List.chain'_reverse]
    exact h1.imp (fun a b hab => hab)
  have h3 : List.Chain' (flip R) ((l.dropWhile p).reverse.dropWhile p) :=
    h2.suffix (List.dropWhile_suffix p)
  rw [List.chain'_reverse]
  exact h3

theorem mem_pyStripSet (p : Char → Bool) (l : List Char) (c : Char)
    (h : c ∈ pyStripSet p l) : c ∈ l := by
  unfold pyStripSet at h
  rw [List.mem_reverse] at h
  have h1 := (List.dropWhile_sublist (l := (l.dropWhile p).reverse) p).mem h
  rw [List.mem_reverse] at h1
  exact (List.dropWhile_sublist p).mem h1

theorem head?_dropWhile_false (p : Char → Bool) :
    ∀ (l : List Char) (c : Char), (l.dropWhile p).head? = some c → p c = false
  | [], c, h => by simp at h
  | x :: t, c, h => by
    by_cases hp : p x = true
    · rw [List.dropWhile_cons_of_pos hp] at h
      exact head?_dropWhile_false p t c h
    · rw [List.dropWhile_cons_of_neg hp] at h
      simp only [List.head?_cons, Option.some.injEq] at h
      subst h
      simpa using hp

/-- The head of a stripped list does not satisfy the stripped predicate. -/
theorem pyStripSet_head (p : Char → Bool) (l : List Char) (c : Char)
    (h : (pyStripSet p l).head? = some c) : p c = false := by
  rw [pyStripSet_eq_rdropWhile] at h
  have hpre := List.rdropWhile_prefix p (l.dropWhile p)
  obtain ⟨t, ht⟩ := hpre
  have : (l.dropWhile p).head? = some c := by
    rw [← ht, List.head?_append, h]
    rfl
  exact head?_dropWhile_false p l c this

/-- The last element of a stripped list does not satisfy the predicate. -/
theorem pyStripSet_getLast (p : Char → Bool) (l : List Char) (c : Char)
    (h : (pyStripSet p l).getLast? = some c) : p c = false := by
  rw [pyStripSet_eq_rdropWhile] at h
  have hne : List.rdropWhile p (l.dropWhile p) ≠ [] := by
    intro hcontra
    rw [hcontra] at h
    simp at h
  have hlast := List.rdropWhile_last_not p (l.dropWhile p) hne
  rw [List.getLast?_eq_getLast _ hne] at h
  have := Option.some.inj h
  rw [← this]
  simpa using hlast

theorem string_ne_empty_iff (s : String) : s ≠ "" ↔ s.data ≠ [] := by
  constructor
  · intro h hc
    exact h (String.ext hc)
  · intro h hc
    rw [hc] at h
    exact h rfl

/-- The property bundle for `sanitize_folder`. -/
theorem sanitize_folder_props (s : String) :
    sanitize_folder s ≠ ""
    ∧ (∀ c ∈ (sanitize_folder s).data, badChar c = false)
    ∧ (∀ c ∈ (sanitize_folder s).data, isPySpace c = true → c = ' ')
    ∧ List.Chain' (fun a b => ¬(isPySpace a = true ∧ isPySpace b = true))
        (sanitize_folder s).data
    ∧ (∀ c, (sanitize_folder s).data.head? = some c → isPySpace c = false)
    ∧ (∀ c, (sanitize_folder s).data.getLast? = some c → isPySpace c = false) := by
  unfold sanitize_folder
  by_cases hemp : pyStripL (collapseRuns isPySpace ' '
      ((pyStripL s.data).filter (fun c => !badChar c))) = []
  · rw [if_pos hemp]
    refine ⟨by decide, by decide, by decide, ?_, ?_, ?_⟩
    · have hU : ("Unknown" : String).data = ['U', 'n', 'k', 'n', 'o', 'w', 'n'] := rfl
      rw [hU]
      simp only [List.chain'_cons, List.chain'_singleton]
      refine ⟨by decide, by decide, by decide, by decide, by decide, by decide⟩
    · intro c hc
      have hU : ("Unknown" : String).data.head? = some 'U' := rfl
      rw [hU] at hc
      have := Option.some.inj hc
      rw [← this]
      decide
    · intro c hc
      have hU : ("Unknown" : String).data.getLast? = some 'n' := rfl
      rw [hU] at hc
      have := Option.some.inj hc
      rw [← this]
      decide
  · rw [if_neg hemp]
    set l1 := (pyStripL s.data).filter (fun c => !badChar c) with hl1
    set l2 := pyStripL (collapseRuns isPySpace ' ' l1) with hl2
    have hmem : ∀ c ∈ l2, c = ' ' ∨ (c ∈ l1 ∧ isPySpace c = false) := by
      intro c hc
      have := mem_pyStripSet isPySpace _ c hc
      exact mem_collapseRunsAux isPySpace ' ' l1 false c this
    refine ⟨?_, ?_, ?_, ?_, ?_, ?_⟩
    · rw [string_ne_empty_iff]
      exact hemp
    · intro c hc
      rcases hmem c hc with h' | h'
      · subst h'; decide
      · have := List.of_mem_filter h'.1
        simpa using this
    · intro c hc hsp
      rcases hmem c hc with h' | h'
      · exact h'
      · rw [h'.2] at hsp
        exact absurd hsp (by decide)
    · exact chain'_pyStripSet isPySpace _ _
        (chain'_collapseRunsAux isPySpace ' ' l1 false)
    · intro c hc
      exact pyStripSet_head isPySpace _ c hc
    · intro c hc
      exact pyStripSet_getLast isPySpace _ c hc

/-! The full import-path computation `choose_bucket_and_path` (lines
900-1011). Interactive prompts, the favorites pick list and the clock are
external inputs, so they are passed in through `ImportCtx`; the
`os.path.exists` oracle is membership in `fsPaths`. The `os.makedirs`,
favorites-append (`add_folder_fav`) and logging side effects do not
influence the returned path and are not tracked; the final `shutil.move` is
modelled separately by `fsMove` (see `import_step`). -/

def MEDIA_ROOT : String := "/mnt/ssd/media"
def STAGING_ROOT : String := "/mnt/ssd/media/.ia_staging"
def BUCKET_TV : String := "/mnt/ssd/media/TV"
def BUCKET_MOVIES : String := "/mnt/ssd/media/Movies"
def BUCKET_OTHER : String := "/mnt/ssd/media/Other"

/-- Path builder `staging_file_path`: `os.path.join(STAGING_ROOT, identifier, filename)`. -/
def staging_file_path (identifier filename : String) : String :=
  os_path_join (os_path_join STAGING_ROOT identifier) filename

/-- Formatting `f"{n:02d}"` for the season/episode numbers: zero-pad to width 2. -/
def fmt02 (n : Int) : String :=
  let s := toString n
  if s.length < 2 then "0" ++ s else s

/-- Digit-group continuation for Python `int(str)`: digits with single
underscores strictly between digits. -/
def moreOk : List Char → Bool
  | [] => true
  | c :: t =>
    if c = '_' then
      (match t with
       | d :: _ => d.isDigit && moreOk t
       | [] => false)
    else c.isDigit && moreOk t

def digitsOk : List Char → Bool
  | [] => false
  | c :: t => c.isDigit && moreOk t

def digitsVal (l : List Char) : Nat :=
  l.foldl (fun acc c => if c = '_' then acc else acc * 10 + digitVal c) 0

/-- Python `int(s)` for a decimal string: optional surrounding whitespace,
optional sign, digits with optional single underscores between digits
(ASCII digits). `none` models the `ValueError` branch. -/
def pyParseInt (s : String) : Option Int :=
  match pyStripL s.data with
  | [] => none
  | '+' :: t => if digitsOk t then some ((digitsVal t : Nat) : Int) else none
  | '-' :: t => if digitsOk t then some (-((digitsVal t : Nat) : Int)) else none
  | l => if digitsOk l then some ((digitsVal l : Nat) : Int) else none

/-- The external inputs consumed by one `choose_bucket_and_path` call. The
three `prompt` calls return the typed (already `.strip()`-able) line or
`none` on Escape; `favPick` is what `pick_folder_fav_if_requested` returns
(`none` when the bucket has no favorited folders or the user cancels the
pick list). `stamp` is `time.strftime("%Y%m%d_%H%M%S")`. -/
structure ImportCtx where
  files : List IAFile
  last_bucket : String
  fsPaths : List String
  folderAnswer : Option String
  favPick : Option String
  seasonAnswer : Option String
  episodeAnswer : Option String
  stamp : String

/-- The three outcomes of `choose_bucket_and_path`: the early return when
the staged file is missing, the "Left in staging" returns when a prompt is
escaped, and the path the staged file is moved to. -/
inductive ImportResult where
  | stagingMissing (staging_path : String) : ImportResult
  | leftInStaging (staging_path : String) : ImportResult
  | saved (final_path : String) : ImportResult
deriving DecidableEq

/-- Resolve the `"*"` favorites escape of a prompt answer: a truthy pick
replaces the answer, otherwise the default is used; any other answer is
kept as typed. -/
def resolveFolderAnswer (answer : String) (favPick : Option String)
    (dflt : String) : String :=
  if pyStrip answer = "*" then
    match favPick with
    | some pick => if pick ≠ "" then pick else dflt
    | none => dflt
  else answer

/-- Import path computation `choose_bucket_and_path`. -/
def choose_bucket_and_path (ctx : ImportCtx)
    (identifier filename item_title : String) : ImportResult :=
  let staging_path := staging_file_path identifier filename
  if ¬ ctx.fsPaths.contains staging_path then
    ImportResult.stagingMissing staging_path
  else
    let ep := match detect_sxxeyy filename with
      | some r => some r
      | none => detect_sxxeyy item_title
    let bucket := chooseBucket ctx.last_bucket ctx.files filename item_title
    if bucket = "TV" then
      let show_default := sanitize_folder item_title
      match ctx.folderAnswer with
      | none => ImportResult.leftInStaging staging_path
      | some show0 =>
        let showName := sanitize_folder (resolveFolderAnswer show0 ctx.favPick show_default)
        match ep with
        | some (se, epn) =>
          let season_dir := os_path_join (os_path_join BUCKET_TV showName)
            ("Season " ++ fmt02 (se : Int))
          let ext := pyOr (splitext filename).2 ".mp4"
          let new_name := showName ++ " - S" ++ fmt02 (se : Int)
            ++ "E" ++ fmt02 (epn : Int) ++ ext
          ImportResult.saved (resolve_collision (fun q => ctx.fsPaths.contains q)
            ctx.stamp (os_path_join season_dir new_name))
        | none =>
          match ctx.seasonAnswer with
          | none => ImportResult.leftInStaging staging_path
          | some sAns =>
            let season : Int := (pyParseInt sAns).getD 1
            match ctx.episodeAnswer with
            | none => ImportResult.leftInStaging staging_path
            | some eAns =>
              let episode_override : Option Int :=
                if pyStrip eAns = "" then none else pyParseInt eAns
              let season_dir := os_path_join (os_path_join BUCKET_TV showName)
                ("Season " ++ fmt02 season)
              let new_name :=
                match episode_override with
                | some epn =>
                  let ext := pyOr (splitext filename).2 ".mp4"
                  showName ++ " - S" ++ fmt02 season ++ "E" ++ fmt02 epn ++ ext
                | none => filename
              ImportResult.saved (resolve_collision (fun q => ctx.fsPaths.contains q)
                ctx.stamp (os_path_join season_dir new_name))
    else if bucket = "Movies" then
      let title_default := auto_clean_movie_folder_name item_title filename
      match ctx.folderAnswer with
      | none => ImportResult.leftInStaging staging_path
      | some m0 =>
        let movie := sanitize_folder (resolveFolderAnswer m0 ctx.favPick title_default)
        let movie_dir := os_path_join BUCKET_MOVIES movie
        ImportResult.saved (resolve_collision (fun q => ctx.fsPaths.contains q)
          ctx.stamp (os_path_join movie_dir filename))
    else
      match ctx.folderAnswer with
      | none => ImportResult.leftInStaging staging_path
      | some s0 =>
        let sub := sanitize_folder (resolveFolderAnswer s0 ctx.favPick "Misc")
        let other_dir := os_path_join BUCKET_OTHER sub
        ImportResult.saved (resolve_collision (fun q => ctx.fsPaths.contains q)
          ctx.stamp (os_path_join other_dir filename))

/-! Shape of every saved import path: the first component below the bucket
root is a `sanitize_folder` image, hence a single separator-free directory
name — the claimed "direct child" property. -/

theorem sanitize_data_ne (x : String) : (sanitize_folder x).data ≠ [] :=
  (string_ne_empty_iff _).mp (sanitize_folder_props x).1

theorem sanitize_no_slash (x : String) :
    ∀ c ∈ (sanitize_folder x).data, c ≠ '/' := by
  intro c hc hcontra
  have hb := (sanitize_folder_props x).2.1 c hc
  rw [hcontra] at hb
  exact absurd hb (by decide)

theorem headIsSlash_of_no_slash (s : String) (hne : s.data ≠ [])
    (hns : ∀ c ∈ s.data, c ≠ '/') : headIsSlash s = false := by
  simp only [headIsSlash, decide_eq_false_iff_not]
  cases hd : s.data with
  | nil => exact absurd hd hne
  | cons c t =>
    intro hcontra
    simp only [List.head?_cons, Option.some.injEq] at hcontra
    exact hns c (by rw [hd]; exact List.mem_cons_self _ _) hcontra

theorem headIsSlash_append_of_left (a b : String) (hne : a.data ≠ [])
    (ha : headIsSlash a = false) : headIsSlash (a ++ b) = false := by
  simp only [headIsSlash, decide_eq_false_iff_not, String.data_append] at ha ⊢
  cases hd : a.data with
  | nil => exact absurd hd hne
  | cons c t =>
    rw [hd] at ha
    simpa using ha

theorem os_path_join_std (a b : String) (ha : a ≠ "")
    (ha2 : lastIsSlash a = false) (hb : headIsSlash b = false) :
    os_path_join a b = a ++ "/" ++ b := by
  unfold os_path_join
  rw [if_neg (by simp [hb]), if_neg]
  rintro (h | h)
  · exact ha h
  · rw [ha2] at h
    exact absurd h (by decide)

theorem os_path_join_pre (pre q tail : String) (htail : headIsSlash tail = false) :
    ∃ r : String, os_path_join (pre ++ q) tail = pre ++ r := by
  unfold os_path_join
  rw [if_neg (by simp [htail])]
  by_cases h : pre ++ q = "" ∨ lastIsSlash (pre ++ q) = true
  · rw [if_pos h]
    exact ⟨q ++ tail, by rw [String.append_assoc]⟩
  · rw [if_neg h]
    refine ⟨q ++ "/" ++ tail, ?_⟩
    rw [String.append_assoc, String.append_assoc, String.append_assoc]

theorem splitextL_base_pre (preL restL : List Char)
    (hpre : preL.getLast? = some '/') :
    ∃ midL : List Char, (splitextL (preL ++ restL)).1 = preL ++ midL := by
  have happ := splitextL_append (preL ++ restL)
  have hext := splitextL_ext_no_slash (preL ++ restL)
  rcases List.append_eq_append_iff.mp happ with ⟨a', ha1, ha2⟩ | ⟨c', hc1, _⟩
  · cases haa : a' with
    | nil =>
      refine ⟨[], ?_⟩
      rw [haa] at ha1
      simp at ha1
      simp [← ha1]
    | cons y ys =>
      exfalso
      rw [haa] at ha1 ha2
      have hanil : (y :: ys : List Char) ≠ [] := by simp
      have hl : preL.getLast? = some ((y :: ys).getLast hanil) := by
        rw [ha1, List.getLast?_append, List.getLast?_eq_getLast _ hanil]
        rfl
      rw [hpre] at hl
      have hlast : (y :: ys).getLast hanil = '/' := (Option.some.inj hl).symm
      have hmem : '/' ∈ (y :: ys : List Char) := by
        rw [← hlast]
        exact List.getLast_mem hanil
      have : '/' ∈ (splitextL (preL ++ restL)).2 := by
        rw [ha2]
        exact List.mem_append_left _ hmem
      exact hext '/' this rfl
  · exact ⟨c', hc1⟩

theorem strmk_append (a : String) (b : List Char) :
    a ++ (⟨b⟩ : String) = (⟨a.data ++ b⟩ : String) := by
  apply String.ext
  rw [String.data_append]

theorem resolve_collision_keeps (exq : String → Bool) (stamp pre q : String)
    (hpre : pre.data.getLast? = some '/') :
    ∃ r : String, resolve_collision exq stamp (pre ++ q) = pre ++ r := by
  unfold resolve_collision
  by_cases hex : exq (pre ++ q) = true
  · rw [if_pos hex]
    obtain ⟨midL, hmid⟩ := splitextL_base_pre pre.data q.data hpre
    have hd : (splitextL (pre ++ q).data).1 = pre.data ++ midL := by
      rw [String.data_append]
      exact hmid
    have hbase : (splitext (pre ++ q)).1 = pre ++ (⟨midL⟩ : String) := by
      unfold splitext
      show (⟨(splitextL (pre ++ q).data).1⟩ : String) = _
      rw [hd]
      exact (strmk_append pre midL).symm
    refine ⟨(⟨midL⟩ : String) ++ "_" ++ stamp ++ (splitext (pre ++ q)).2, ?_⟩
    rw [hbase, String.append_assoc, String.append_assoc, String.append_assoc,
      String.append_assoc, String.append_assoc]
  · rw [if_neg hex]
    exact ⟨q, rfl⟩

theorem lastSlash_concat (s : String) :
    ((s ++ "/") : String).data.getLast? = some '/' := by
  rw [String.data_append, List.getLast?_append]
  rfl

theorem lastIsSlash_root_name (root x : String) :
    lastIsSlash (root ++ "/" ++ sanitize_folder x) = false := by
  simp only [lastIsSlash, decide_eq_false_iff_not, String.data_append]
  intro hcontra
  rw [List.append_assoc, List.getLast?_append, List.getLast?_append] at hcontra
  have hne := sanitize_data_ne x
  have hsome : (sanitize_folder x).data.getLast? = some ((sanitize_folder x).data.getLast hne) :=
    List.getLast?_eq_getLast _ hne
  rw [hsome] at hcontra
  simp only [Option.or_some, Option.some.injEq] at hcontra
  exact sanitize_no_slash x _ (List.getLast_mem hne) hcontra

theorem root_name_ne_empty (root x : String) :
    root ++ "/" ++ sanitize_folder x ≠ "" := by
  rw [string_ne_empty_iff]
  simp only [String.data_append]
  simp [sanitize_data_ne x]

/-- Two-level saved-path shape (Movies / Other branches). -/
theorem shape2 (exq : String → Bool) (stamp root x tail : String)
    (hr1 : root ≠ "") (hr2 : lastIsSlash root = false)
    (htail : headIsSlash tail = false) :
    ∃ rest : String,
      resolve_collision exq stamp (os_path_join (os_path_join root (sanitize_folder x)) tail)
        = root ++ "/" ++ sanitize_folder x ++ "/" ++ rest := by
  have hname := headIsSlash_of_no_slash (sanitize_folder x) (sanitize_data_ne x)
    (sanitize_no_slash x)
  rw [os_path_join_std root (sanitize_folder x) hr1 hr2 hname]
  rw [os_path_join_std _ tail (root_name_ne_empty root x) (lastIsSlash_root_name root x) htail]
  obtain ⟨r, hr⟩ := resolve_collision_keeps exq stamp
    (root ++ "/" ++ sanitize_folder x ++ "/") tail
    (lastSlash_concat (root ++ "/" ++ sanitize_folder x))
  exact ⟨r, hr⟩

/-- Three-level saved-path shape (the TV branch, whose destination has an
extra `Season NN` level below the show directory). -/
theorem shape3 (exq : String → Bool) (stamp root x mid tail : String)
    (hr1 : root ≠ "") (hr2 : lastIsSlash root = false)
    (hmid : headIsSlash mid = false) (htail : headIsSlash tail = false) :
    ∃ rest : String,
      resolve_collision exq stamp
          (os_path_join (os_path_join (os_path_join root (sanitize_folder x)) mid) tail)
        = root ++ "/" ++ sanitize_folder x ++ "/" ++ rest := by
  have hname := headIsSlash_of_no_slash (sanitize_folder x) (sanitize_data_ne x)
    (sanitize_no_slash x)
  rw [os_path_join_std root (sanitize_folder x) hr1 hr2 hname]
  rw [os_path_join_std _ mid (root_name_ne_empty root x) (lastIsSlash_root_name root x) hmid]
  obtain ⟨r1, hr1'⟩ := os_path_join_pre (root ++ "/" ++ sanitize_folder x ++ "/") mid tail htail
  rw [hr1']
  obtain ⟨r2, hr2'⟩ := resolve_collision_keeps exq stamp
    (root ++ "/" ++ sanitize_folder x ++ "/") r1
    (lastSlash_concat (root ++ "/" ++ sanitize_folder x))
  exact ⟨r2, hr2'⟩

theorem data_append_ne (a b : String) (ha : a.data ≠ []) : (a ++ b).data ≠ [] := by
  simp [String.data_append, ha]

/-- The rewritten episodic filename starts with the sanitized show name,
so it never restarts the joined path. -/
theorem new_name_headIsSlash (x s1 s2 s3 s4 s5 : String) :
    headIsSlash (sanitize_folder x ++ s1 ++ s2 ++ s3 ++ s4 ++ s5) = false := by
  have h0 : (sanitize_folder x).data ≠ [] := sanitize_data_ne x
  have hh : headIsSlash (sanitize_folder x) = false :=
    headIsSlash_of_no_slash _ h0 (sanitize_no_slash x)
  have d1 := data_append_ne (sanitize_folder x) s1 h0
  have a1 := headIsSlash_append_of_left (sanitize_folder x) s1 h0 hh
  have d2 := data_append_ne _ s2 d1
  have a2 := headIsSlash_append_of_left _ s2 d1 a1
  have d3 := data_append_ne _ s3 d2
  have a3 := headIsSlash_append_of_left _ s3 d2 a2
  have d4 := data_append_ne _ s4 d3
  have a4 := headIsSlash_append_of_left _ s4 d3 a3
  exact headIsSlash_append_of_left _ s5 d4 a4

theorem season_headIsSlash (z : String) :
    headIsSlash ("Season " ++ z) = false :=
  headIsSlash_append_of_left "Season " z (by decide) (by decide)

set_option maxHeartbeats 1600000

/-- C10: `sanitize_folder` always yields a non-empty name with none of the
characters `/ \ : * ? " < > |` and collapsed whitespace (every whitespace
character is a single interior space); and every path an import saves to
has the form `<bucket root>/<sanitize_folder image>/<rest>` — the folder
component below the bucket root passed through `sanitize_folder` and is a
single separator-free directory name, hence a direct child of its bucket
root. (For the TV bucket the `rest` part begins with the code-generated
`Season NN` level.) -/
theorem C10_sanitize_and_direct_child :
    (∀ s : String,
      sanitize_folder s ≠ ""
      ∧ (∀ c ∈ (sanitize_folder s).data, badChar c = false)
      ∧ (∀ c ∈ (sanitize_folder s).data, isPySpace c = true → c = ' ')
      ∧ List.Chain' (fun a b => ¬(isPySpace a = true ∧ isPySpace b = true))
          (sanitize_folder s).data
      ∧ (∀ c, (sanitize_folder s).data.head? = some c → isPySpace c = false)
      ∧ (∀ c, (sanitize_folder s).data.getLast? = some c → isPySpace c = false))
    ∧ (∀ (ctx : ImportCtx) (identifier filename item_title p : String),
        headIsSlash filename = false →
        choose_bucket_and_path ctx identifier filename item_title
          = ImportResult.saved p →
        ∃ (root x rest : String),
          (root = BUCKET_TV ∨ root = BUCKET_MOVIES ∨ root = BUCKET_OTHER)
          ∧ p = root ++ "/" ++ sanitize_folder x ++ "/" ++ rest) := by
  refine ⟨sanitize_folder_props, ?_⟩
  intro ctx identifier filename item_title p hfn h
  have htv1 : BUCKET_TV ≠ "" := by decide
  have htv2 : lastIsSlash BUCKET_TV = false := by decide
  have hmv1 : BUCKET_MOVIES ≠ "" := by decide
  have hmv2 : lastIsSlash BUCKET_MOVIES = false := by decide
  have hot1 : BUCKET_OTHER ≠ "" := by decide
  have hot2 : lastIsSlash BUCKET_OTHER = false := by decide
  simp only [choose_bucket_and_path] at h
  split at h
  · exact absurd h (by simp)
  · split at h
    · -- TV bucket
      split at h
      · exact absurd h (by simp)
      · rename_i show0 heq0
        split at h
        · -- season/episode detected
          rename_i se epn heq1
          simp only [ImportResult.saved.injEq] at h
          subst h
          obtain ⟨rest, hrest⟩ := shape3 (fun q => ctx.fsPaths.contains q) ctx.stamp
            BUCKET_TV (resolveFolderAnswer show0 ctx.favPick (sanitize_folder item_title))
            ("Season " ++ fmt02 (se : Int))
            (sanitize_folder (resolveFolderAnswer show0 ctx.favPick (sanitize_folder item_title))
              ++ " - S" ++ fmt02 (se : Int) ++ "E" ++ fmt02 (epn : Int)
              ++ pyOr (splitext filename).2 ".mp4")
            htv1 htv2 (season_headIsSlash _) (new_name_headIsSlash _ _ _ _ _ _)
          exact ⟨BUCKET_TV, _, rest, Or.inl rfl, hrest⟩
        · -- no detection: prompted season/episode
          split at h
          · exact absurd h (by simp)
          · rename_i sAns heq2
            split at h
            · exact absurd h (by simp)
            · rename_i eAns heq3
              split at h
              · -- episode override given: renamed file
                rename_i epn heq4
                simp only [ImportResult.saved.injEq] at h
                subst h
                obtain ⟨rest, hrest⟩ := shape3 (fun q => ctx.fsPaths.contains q) ctx.stamp
                  BUCKET_TV (resolveFolderAnswer show0 ctx.favPick (sanitize_folder item_title))
                  ("Season " ++ fmt02 ((pyParseInt sAns).getD 1))
                  (sanitize_folder (resolveFolderAnswer show0 ctx.favPick (sanitize_folder item_title))
                    ++ " - S" ++ fmt02 ((pyParseInt sAns).getD 1) ++ "E" ++ fmt02 epn
                    ++ pyOr (splitext filename).2 ".mp4")
                  htv1 htv2 (season_headIsSlash _)
                  (new_name_headIsSlash _ _ _ _ _ _)
                exact ⟨BUCKET_TV, _, rest, Or.inl rfl, hrest⟩
              · -- no override: original filename kept
                simp only [ImportResult.saved.injEq] at h
                subst h
                obtain ⟨rest, hrest⟩ := shape3 (fun q => ctx.fsPaths.contains q) ctx.stamp
                  BUCKET_TV (resolveFolderAnswer show0 ctx.favPick (sanitize_folder item_title))
                  ("Season " ++ fmt02 ((pyParseInt sAns).getD 1)) filename
                  htv1 htv2 (season_headIsSlash _) hfn
                exact ⟨BUCKET_TV, _, rest, Or.inl rfl, hrest⟩
    · split at h
      · -- Movies bucket
        split at h
        · exact absurd h (by simp)
        · rename_i m0 heqm
          simp only [ImportResult.saved.injEq] at h
          subst h
          obtain ⟨rest, hrest⟩ := shape2 (fun q => ctx.fsPaths.contains q) ctx.stamp
            BUCKET_MOVIES
            (resolveFolderAnswer m0 ctx.favPick (auto_clean_movie_folder_name item_title filename))
            filename hmv1 hmv2 hfn
          exact ⟨BUCKET_MOVIES, _, rest, Or.inr (Or.inl rfl), hrest⟩
      · -- Other bucket
        split at h
        · exact absurd h (by simp)
        · rename_i s0 heqo
          simp only [ImportResult.saved.injEq] at h
          subst h
          obtain ⟨rest, hrest⟩ := shape2 (fun q => ctx.fsPaths.contains q) ctx.stamp
            BUCKET_OTHER (resolveFolderAnswer s0 ctx.favPick "Misc")
            filename hot1 hot2 hfn
          exact ⟨BUCKET_OTHER, _, rest, Or.inr (Or.inr rfl), hrest⟩

/-- A concrete import into the Other bucket used as the C10 witness. -/
def c10Ctx : ImportCtx :=
  { files := [], last_bucket := "Other",
    fsPaths := ["/mnt/ssd/media/.ia_staging/itemX/notes.txt"],
    folderAnswer := some "Docs", favPick := none,
    seasonAnswer := none, episodeAnswer := none,
    stamp := "20240101_120000" }

/-- Witness for C10: the sanitizer properties at a hostile input, and the
direct-child path shape of a concrete Other-bucket import. -/
theorem C10_sanitize_and_direct_child_witness :
    (sanitize_folder " a/b\\c :  *?\"<>| d  " ≠ ""
      ∧ (∀ c ∈ (sanitize_folder " a/b\\c :  *?\"<>| d  ").data, badChar c = false)
      ∧ (∀ c ∈ (sanitize_folder " a/b\\c :  *?\"<>| d  ").data,
          isPySpace c = true → c = ' ')
      ∧ List.Chain' (fun a b => ¬(isPySpace a = true ∧ isPySpace b = true))
          (sanitize_folder " a/b\\c :  *?\"<>| d  ").data
      ∧ (∀ c, (sanitize_folder " a/b\\c :  *?\"<>| d  ").data.head? = some c →
          isPySpace c = false)
      ∧ (∀ c, (sanitize_folder " a/b\\c :  *?\"<>| d  ").data.getLast? = some c →
          isPySpace c = false))
    ∧ ∃ (root x rest : String),
        (root = BUCKET_TV ∨ root = BUCKET_MOVIES ∨ root = BUCKET_OTHER)
        ∧ "/mnt/ssd/media/Other/Docs/notes.txt"
            = root ++ "/" ++ sanitize_folder x ++ "/" ++ rest :=
  ⟨C10_sanitize_and_direct_child.1 " a/b\\c :  *?\"<>| d  ",
   C10_sanitize_and_direct_child.2 c10Ctx "itemX" "notes.txt" "Some Notes"
     "/mnt/ssd/media/Other/Docs/notes.txt" (by decide) (by decide)⟩

end IaMinotaur
